import Mathlib

/-!
Verification of the transaction-aggregation core of the banking_application
repository (src/utils.py, src/services.py, src/reports.py).

Numbers are modelled as exact rationals (Python floats idealised), date-time
values as a record of calendar fields ordered lexicographically, and
transaction rows as records whose optional fields reflect missing or
non-numeric spreadsheet cells.  Each Python function is translated into a
Lean definition; functions that conceptually could mutate their argument are
translated in state-passing style, returning the final state of the input
collection alongside the result.
-/

namespace Banking

/-! ### Rounding, following Python's round-half-to-even at 2 decimals -/

/-- Round a rational to the nearest integer, ties to the even integer,
as Python's built-in rounding does. -/
def roundHalfEven (q : ℚ) : ℤ :=
  let f : ℤ := ⌊q⌋
  let r : ℚ := q - f
  if r < 1/2 then f
  else if 1/2 < r then f + 1
  else if f % 2 = 0 then f else f + 1

/-- Model of Python's round(x, 2). -/
def round2 (q : ℚ) : ℚ := (roundHalfEven (q * 100) : ℚ) / 100

/-! ### Date-time values -/

/-- A date-time value, as produced by datetime.strptime / pandas datetime64:
calendar fields plus microseconds. -/
structure DateTime where
  year : ℕ
  month : ℕ
  day : ℕ
  hour : ℕ
  minute : ℕ
  second : ℕ
  usec : ℕ
deriving DecidableEq, Repr

/-- Lexicographic encoding of a date-time value; the order of date-times is
the order of keys. -/
def DateTime.key (dt : DateTime) : ℕ :=
  ((((dt.year * 13 + dt.month) * 32 + dt.day) * 24 + dt.hour) * 60 + dt.minute)
    * 60000000 + dt.second * 1000000 + dt.usec

/-- Boolean order on date-times (chronological). -/
def dtLE (a b : DateTime) : Bool := decide (a.key ≤ b.key)

/-- Strict boolean order on date-times. -/
def dtLT (a b : DateTime) : Bool := decide (a.key < b.key)

/-- Gregorian leap-year test, as in Python's calendar. -/
def isLeapYear (y : ℕ) : Bool :=
  y % 4 = 0 && (y % 100 ≠ 0 || y % 400 = 0)

/-- Number of days of a month, as validated by datetime's constructor. -/
def daysInMonth (y m : ℕ) : ℕ :=
  if m = 2 then (if isLeapYear y then 29 else 28)
  else if m = 4 ∨ m = 6 ∨ m = 9 ∨ m = 11 then 30
  else 31

/-! ### Character-list string primitives

The embedding re-implements the string primitives it needs (splitting,
digit parsing, stripping, suffix taking, joining) by structural recursion
over the character list of a string, with the same semantics as the Python
and Lean library operations they stand for. -/

/-- Split a character list at every occurrence of the separator; n
separators yield n+1 (possibly empty) parts, as Python's split. -/
def splitOnChar (sep : Char) : List Char → List (List Char)
  | [] => [[]]
  | c :: cs =>
    if c = sep then [] :: splitOnChar sep cs
    else
      match splitOnChar sep cs with
      | [] => [[c]]
      | h :: t => (c :: h) :: t

/-- Decimal digit test. -/
def isDigitChar (c : Char) : Bool := decide (48 ≤ c.toNat ∧ c.toNat ≤ 57)

/-- Value of a decimal digit string (accumulator form). -/
def digitsVal : List Char → ℕ → ℕ
  | [], acc => acc
  | c :: cs, acc => digitsVal cs (acc * 10 + (c.toNat - 48))

/-- Parse a non-empty all-digit character list as a natural number. -/
def digitsToNat (l : List Char) : Option ℕ :=
  if l ≠ [] ∧ l.all isDigitChar then some (digitsVal l 0) else none

/-- Python's str.strip() whitespace test. -/
def isStripChar (c : Char) : Bool :=
  decide (c.toNat = 9 ∨ c.toNat = 10 ∨ c.toNat = 11 ∨ c.toNat = 12 ∨
    c.toNat = 13 ∨ c.toNat = 32)

/-- Python's str.strip(): remove leading and trailing whitespace. -/
def pyStrip (s : String) : String :=
  ⟨((s.data.dropWhile isStripChar).reverse.dropWhile isStripChar).reverse⟩

/-- The last n characters of a string (Python's s[-n:]). -/
def lastChars (s : String) (n : ℕ) : String :=
  ⟨(s.data.reverse.take n).reverse⟩

/-- Join strings with a separator. -/
def joinWith (sep : String) : List String → String
  | [] => ""
  | [x] => x
  | x :: xs => x ++ sep ++ joinWith sep xs

/-! ### strptime / strftime

datetime.strptime with the two fixed formats used by the repository:
"%Y-%m-%d %H:%M:%S" and "%d.%m.%Y %H:%M:%S".  Python's strptime matches
%Y as exactly four digits and the other fields as one or two digits within
range; the datetime constructor then validates day against the month length
and the year against MINYEAR = 1. -/

/-- Parse a numeric strptime field of at most maxLen digits. -/
def parseField (l : List Char) (maxLen : ℕ) : Option ℕ :=
  if l.length ≤ maxLen then digitsToNat l else none

/-- Parse the %Y field: exactly four digits. -/
def parseYear (l : List Char) : Option ℕ :=
  if l.length = 4 then digitsToNat l else none

/-- Validate the ranges of the parsed fields and build the date-time,
as datetime's constructor does. -/
def mkValidDate (y mo d h mi se : ℕ) : Option DateTime :=
  if 1 ≤ y ∧ 1 ≤ mo ∧ mo ≤ 12 ∧ 1 ≤ d ∧ d ≤ daysInMonth y mo ∧
      h ≤ 23 ∧ mi ≤ 59 ∧ se ≤ 59 then
    some ⟨y, mo, d, h, mi, se, 0⟩
  else none

/-- datetime.strptime(s, "%Y-%m-%d %H:%M:%S"), returning none where Python
raises ValueError. -/
def strptimeYMD (s : String) : Option DateTime :=
  match splitOnChar ' ' s.data with
  | [datePart, timePart] =>
    match splitOnChar '-' datePart, splitOnChar ':' timePart with
    | [ys, ms, ds], [hs, mins, ss] =>
      match parseYear ys, parseField ms 2, parseField ds 2,
            parseField hs 2, parseField mins 2, parseField ss 2 with
      | some y, some mo, some d, some h, some mi, some se =>
        mkValidDate y mo d h mi se
      | _, _, _, _, _, _ => none
    | _, _ => none
  | _ => none

/-- datetime.strptime(s, "%d.%m.%Y %H:%M:%S"), returning none where Python
raises ValueError. -/
def strptimeDMY (s : String) : Option DateTime :=
  match splitOnChar ' ' s.data with
  | [datePart, timePart] =>
    match splitOnChar '.' datePart, splitOnChar ':' timePart with
    | [ds, ms, ys], [hs, mins, ss] =>
      match parseYear ys, parseField ms 2, parseField ds 2,
            parseField hs 2, parseField mins 2, parseField ss 2 with
      | some y, some mo, some d, some h, some mi, some se =>
        mkValidDate y mo d h mi se
      | _, _, _, _, _, _ => none
    | _, _ => none
  | _ => none

/-- Zero-pad a numeral to two digits. -/
def pad2 (n : ℕ) : String :=
  if n < 10 then "0" ++ toString n else toString n

/-- Zero-pad a numeral to four digits. -/
def pad4 (n : ℕ) : String :=
  if n < 10 then "000" ++ toString n
  else if n < 100 then "00" ++ toString n
  else if n < 1000 then "0" ++ toString n
  else toString n

/-- strftime("%d.%m.%Y"). -/
def strftimeDMY (dt : DateTime) : String :=
  pad2 dt.day ++ "." ++ pad2 dt.month ++ "." ++ pad4 dt.year

/-! ### Insertion-ordered accumulation maps

Python dicts (and collections.defaultdict) keep keys in insertion order;
adding v under key k updates the existing entry or appends a fresh one.
Both analyze_cards and analyze_cashback accumulate sums this way. -/

/-- Add v under key k: update the existing entry, else append at the end. -/
def addTo : List (String × ℚ) → String → ℚ → List (String × ℚ)
  | [], k, v => [(k, v)]
  | (k', v') :: rest, k, v =>
    if k' = k then (k', v' + v) :: rest else (k', v') :: addTo rest k v

/-- The keys of a list of contributions, in first-encounter order. -/
def keysFirst : List (String × ℚ) → List String
  | [] => []
  | (k, _) :: rest => k :: (keysFirst rest).filter (fun k' => decide (k' ≠ k))

/-- Sum of the contributions recorded under key k. -/
def sumFor (l : List (String × ℚ)) (k : String) : ℚ :=
  ((l.filter (fun p => decide (p.1 = k))).map Prod.snd).sum

/-- Fold a list of keyed contributions into an accumulation map. -/
def foldAdd (acc : List (String × ℚ)) (l : List (String × ℚ)) : List (String × ℚ) :=
  l.foldl (fun m p => addTo m p.1 p.2) acc

/-! ### filter_operations_by_date (src/utils.py)

A dataframe row carries the "Дата платежа" column (None for NaT, i.e. a
missing or unparseable payment date) plus the remaining columns, abstracted
as an opaque payload that the function preserves verbatim. -/

/-- A row of the operations dataframe as seen by filter_operations_by_date. -/
structure PayRow where
  paymentDate : Option DateTime
  rest : String
deriving DecidableEq, Repr

/-- Sort key of a row for sort_values("Дата платежа"). -/
def payRowKey (r : PayRow) : ℕ :=
  match r.paymentDate with
  | some d => d.key
  | none => 0

/-- Row comparison used by the payment-date sort. -/
def payLE (a b : PayRow) : Bool := decide (payRowKey a ≤ payRowKey b)

/-- filter_operations_by_date, in state-passing style: the second component
is the final state of the input dataframe (the function only reads it). -/
def filter_operations_by_date_st (df : List PayRow) (date_str : String) :
    Except String (List PayRow) × List PayRow :=
  match strptimeYMD date_str with
  | none => (Except.error "ValueError: time data does not match format", df)
  | some target_date =>
    let first_day := { target_date with day := 1 }
    let target_end :=
      { target_date with hour := 23, minute := 59, second := 59, usec := 999999 }
    let df_clean := df.filter (fun r => r.paymentDate.isSome)
    let filtered_df := df_clean.filter (fun r =>
      match r.paymentDate with
      | some d => dtLE first_day d && dtLE d target_end
      | none => false)
    (Except.ok (filtered_df.mergeSort payLE), df)

/-- filter_operations_by_date (result component). -/
def filter_operations_by_date (df : List PayRow) (date_str : String) :
    Except String (List PayRow) :=
  (filter_operations_by_date_st df date_str).1

/-! ### spending_by_category (src/reports.py) -/

/-- A row of the transactions dataframe as seen by spending_by_category:
the "Категория" and "Дата операции" columns (the latter already of
datetime64 dtype) plus the remaining columns, preserved verbatim. -/
structure TxRow where
  category : String
  opDate : DateTime
  rest : String
deriving DecidableEq, Repr

/-- end_date - pd.DateOffset(months=3): subtract three calendar months,
clamping the day to the length of the resulting month. -/
def subMonths3 (dt : DateTime) : DateTime :=
  let total := dt.year * 12 + (dt.month - 1)
  let t2 := total - 3
  let y := t2 / 12
  let m := t2 % 12 + 1
  { dt with year := y, month := m, day := min dt.day (daysInMonth y m) }

/-- Row comparison used by sort_values("Дата операции") on transaction rows. -/
def txLE (a b : TxRow) : Bool := dtLE a.opDate b.opDate

/-- spending_by_category, in state-passing style; date = none models an
absent date argument, in which case today (pd.Timestamp.today()) is used. -/
def spending_by_category_st (transactions : List TxRow) (category : String)
    (date : Option DateTime) (today : DateTime) : List TxRow × List TxRow :=
  let df := transactions
  let end_date := match date with | none => today | some d => d
  let start_date := subMonths3 end_date
  let filtered := df.filter (fun r =>
    decide (r.category = category) && dtLT start_date r.opDate &&
      dtLE r.opDate end_date)
  (filtered.mergeSort txLE, transactions)

/-- spending_by_category (result component). -/
def spending_by_category (transactions : List TxRow) (category : String)
    (date : Option DateTime) (today : DateTime) : List TxRow :=
  (spending_by_category_st transactions category date today).1

/-! ### analyze_cards (src/utils.py) -/

/-- The value of a spreadsheet cell: a number, or some non-numeric value. -/
inductive CellVal where
  | num (q : ℚ)
  | other
deriving DecidableEq, Repr

/-- isinstance(v, (int, float)). -/
def CellVal.isNum : CellVal → Bool
  | .num _ => true
  | .other => false

/-- An operation mapping as seen by analyze_cards: the "Номер карты" value
as a string (none when the key is missing) and the "Сумма операции" value. -/
structure CardOp where
  card : Option String
  amount : Option CellVal
deriving DecidableEq, Repr

/-- One entry of analyze_cards' result. -/
structure CardSummary where
  last_digits : String
  total_spent : ℚ
  cashback : ℚ
deriving DecidableEq, Repr

/-- The body of analyze_cards' accumulation loop for one operation. -/
def cardStep (card_expenses : List (String × ℚ)) (op : CardOp) :
    List (String × ℚ) :=
  let card_number := pyStrip (op.card.getD "")
  let amount := op.amount.getD (CellVal.num 0)
  if card_number = "" ∨ amount.isNum = false then card_expenses
  else
    match amount with
    | CellVal.num q =>
      if q < 0 then
        let last_4 :=
          if 4 ≤ card_number.length then lastChars card_number 4 else card_number
        addTo card_expenses last_4 (abs q)
      else card_expenses
    | CellVal.other => card_expenses

/-- analyze_cards, in state-passing style. -/
def analyze_cards_st (operations : List CardOp) :
    List CardSummary × List CardOp :=
  let card_expenses := operations.foldl cardStep []
  (card_expenses.map (fun p =>
    { last_digits := p.1, total_spent := round2 p.2,
      cashback := round2 (p.2 * (1/100)) }),
   operations)

/-- analyze_cards (result component). -/
def analyze_cards (operations : List CardOp) : List CardSummary :=
  (analyze_cards_st operations).1

/-- Modelled from the claim's words: the last 4 characters of the card
number, or the whole string when shorter than 4. -/
def cardSuffix (s : String) : String :=
  if s.length < 4 then s else lastChars s 4

/-- Modelled from the claim's words: the contribution of one record to the
card aggregation — ignored when the card number is empty/missing or the
amount non-numeric, counted with its absolute value when the amount is
negative. -/
def cardExpense (op : CardOp) : Option (String × ℚ) :=
  let cardStr := pyStrip (op.card.getD "")
  if cardStr = "" then none
  else
    match op.amount.getD (CellVal.num 0) with
    | CellVal.num q => if q < 0 then some (cardSuffix cardStr, abs q) else none
    | CellVal.other => none

/-! ### analyze_cashback (src/services.py) -/

/-- A transaction mapping as seen by analyze_cashback: the "Дата операции"
string, the "Категория" value and the "Бонусы (включая кэшбэк)" value,
each none when the key is missing. -/
structure CashTx where
  date : Option String
  category : Option String
  cashback : Option CellVal
deriving DecidableEq, Repr

/-- The body of analyze_cashback's accumulation loop for one transaction. -/
def cashStep (year month : ℕ) (acc : List (String × ℚ)) (t : CashTx) :
    List (String × ℚ) :=
  match strptimeDMY (t.date.getD "") with
  | none => acc
  | some dt =>
    if dt.year ≠ year ∨ dt.month ≠ month then acc
    else
      let category := t.category.getD "Неизвестно"
      match t.cashback.getD (CellVal.num 0) with
      | CellVal.num cb => if cb < 0 then acc else addTo acc category cb
      | CellVal.other => acc

/-- The per-category map built by analyze_cashback, values rounded to 2
decimals after summation. -/
def cashbackMap (data : List CashTx) (year month : ℕ) : List (String × ℚ) :=
  (data.foldl (cashStep year month) []).map (fun p => (p.1, round2 p.2))

/-- Hexadecimal digit (lowercase), for JSON control-character escapes. -/
def hexDigit (n : ℕ) : Char :=
  if n < 10 then Char.ofNat (48 + n) else Char.ofNat (87 + n)

/-- JSON escaping of one character, as json.dumps with ensure_ascii=False. -/
def escapeChar (c : Char) : String :=
  if c = '"' then "\\\""
  else if c = '\\' then "\\\\"
  else if c = '\n' then "\\n"
  else if c = '\t' then "\\t"
  else if c = '\r' then "\\r"
  else if c.toNat = 8 then "\\b"
  else if c.toNat = 12 then "\\f"
  else if c.toNat < 32 then
    "\\u00" ++ String.singleton (hexDigit (c.toNat / 16)) ++
      String.singleton (hexDigit (c.toNat % 16))
  else String.singleton c

/-- JSON escaping of a string's characters. -/
def escapeJSONString (s : String) : String :=
  s.data.foldl (fun acc c => acc ++ escapeChar c) ""

/-- Decimal rendering of a rational number with two decimal places,
matching Python's rendering of the values produced by round(·, 2):
integer-valued sums (int in Python) print without a decimal point, other
values with at most two decimals and no trailing zero. -/
def printNum (q : ℚ) : String :=
  let sign := if q < 0 then "-" else ""
  let t : ℤ := ⌊(abs q) * 100⌋
  let i := t / 100
  let f := t % 100
  if f = 0 then sign ++ toString i
  else
    let frac :=
      if f % 10 = 0 then toString (f / 10)
      else if f < 10 then "0" ++ toString f
      else toString f
    sign ++ toString i ++ "." ++ frac

/-- json.dumps(mapping, ensure_ascii=False, indent=4) on a string-keyed
mapping of numbers, keys in insertion order. -/
def jsonDumps (m : List (String × ℚ)) : String :=
  match m with
  | [] => "\x7b\x7d"
  | _ =>
    "\x7b\n" ++
      joinWith ",\n"
        (m.map (fun p => "    \"" ++ escapeJSONString p.1 ++ "\": " ++ printNum p.2)) ++
      "\n\x7d"

/-- analyze_cashback, in state-passing style: returns the JSON string and
the final state of the input list. -/
def analyze_cashback_st (data : List CashTx) (year month : ℕ) :
    String × List CashTx :=
  (jsonDumps (cashbackMap data year month), data)

/-- analyze_cashback (result component). -/
def analyze_cashback (data : List CashTx) (year month : ℕ) : String :=
  (analyze_cashback_st data year month).1

/-- Modelled from the claim's words: the contribution of one record to the
cashback aggregation — kept only when the operation date parses in format
DD.MM.YYYY HH:MM:SS with matching year and month and the cashback value
(defaulting to 0 when absent) is numeric and non-negative. -/
def cashContribution (year month : ℕ) (t : CashTx) : Option (String × ℚ) :=
  match strptimeDMY (t.date.getD "") with
  | none => none
  | some dt =>
    if dt.year = year ∧ dt.month = month then
      match t.cashback.getD (CellVal.num 0) with
      | CellVal.num cb =>
        if 0 ≤ cb then some (t.category.getD "Неизвестно", cb) else none
      | CellVal.other => none
    else none

/-! ### get_top_5_transactions (src/utils.py) -/

/-- The "Дата операции" value as seen by get_top_5_transactions: a string,
a datetime-like value (anything with strftime), or neither. -/
inductive DateVal where
  | str (s : String)
  | dt (d : DateTime)
  | missing
deriving DecidableEq, Repr

/-- An operation mapping as seen by get_top_5_transactions. -/
structure TopOp where
  amount : Option CellVal
  date : DateVal
  category : Option String
  descr : Option String
deriving DecidableEq, Repr

/-- One entry of get_top_5_transactions' result. -/
structure TopTx where
  date : String
  amount : ℚ
  category : String
  descr : String
deriving DecidableEq, Repr

/-- The date-formatting branch of get_top_5_transactions. -/
def formatTopDate : DateVal → String
  | .str s =>
    match strptimeDMY s with
    | some d => strftimeDMY d
    | none => "Неизвестно"
  | .dt d => strftimeDMY d
  | .missing => "Неизвестно"

/-- The transaction entry built from one kept operation. -/
def mkTopTx (op : TopOp) (q : ℚ) : TopTx :=
  { date := formatTopDate op.date, amount := q,
    category := pyStrip (op.category.getD "—"),
    descr := pyStrip (op.descr.getD "—") }

/-- The entry list built by get_top_5_transactions' loop: records with a
non-numeric or missing amount are skipped. -/
def topEntries (operations : List TopOp) : List TopTx :=
  operations.filterMap (fun op =>
    match op.amount with
    | some (CellVal.num q) => some (mkTopTx op q)
    | _ => none)

/-- Comparison of sorted(key=lambda x: abs(x.amount), reverse=True), as a
stable descending order on absolute amounts. -/
def topLE (a b : TopTx) : Bool := decide (abs b.amount ≤ abs a.amount)

/-- get_top_5_transactions, in state-passing style. -/
def get_top_5_transactions_st (operations : List TopOp) :
    List TopTx × List TopOp :=
  (((topEntries operations).mergeSort topLE).take 5, operations)

/-- get_top_5_transactions (result component). -/
def get_top_5_transactions (operations : List TopOp) : List TopTx :=
  (get_top_5_transactions_st operations).1

/-! ### get_greeting (src/utils.py), as a function of the current hour -/

/-- get_greeting, with datetime.now().hour made explicit. -/
def get_greeting (hour : ℕ) : String :=
  if 6 ≤ hour ∧ hour < 12 then "Доброе утро"
  else if 12 ≤ hour ∧ hour < 18 then "Добрый день"
  else if 18 ≤ hour ∧ hour < 24 then "Добрый вечер"
  else "Доброй ночи"

/-! ### report_to_file (src/reports.py)

The wrapper's result value is modelled by a closed set of variants
mirroring the isinstance chain; the written file is modelled at the level
of the JSON value handed to json.dump (the json module's own
serialize/parse round trip is the standard library's contract). -/

/-- A JSON value. -/
inductive JValue where
  | null
  | bool (b : Bool)
  | num (q : ℚ)
  | str (s : String)
  | arr (items : List JValue)
  | obj (fields : List (String × JValue))

/-- The result of a wrapped report function: a pandas DataFrame (rows of
column-to-cell mappings), a directly JSON-serializable value (dict, list,
str, int, float, bool or None), or any other object, carried as its str()
rendering. -/
inductive ReportResult where
  | dataframe (rows : List (List (String × JValue)))
  | jsonLike (v : JValue)
  | otherVal (s : String)

/-- The isinstance chain of report_to_file's wrapper: the value passed to
json.dump. -/
def data_to_save : ReportResult → JValue
  | .dataframe rows => JValue.arr (rows.map JValue.obj)
  | .jsonLike v => v
  | .otherVal s => JValue.str s

/-- report_to_file's wrapper: runs the wrapped function, writes the
serialized result (second component: the written JSON value) and returns
the original result unchanged (first component). -/
def report_to_file {α : Type} (func : α → ReportResult) :
    α → ReportResult × JValue :=
  fun args =>
    let result := func args
    (result, data_to_save result)

/-- Modelled from the claim's words: the JSON-serializable projection of a
report result — a tabular result becomes its list of per-row mappings, a
dict/list/string/number/boolean/null result is serialized as-is, any other
value becomes its string representation. -/
def jsonProjection : ReportResult → JValue
  | .dataframe rows => JValue.arr (rows.map JValue.obj)
  | .jsonLike v => v
  | .otherVal s => JValue.str s

/-! ## Lemmas about insertion-ordered accumulation maps -/

theorem addTo_of_not_mem : ∀ (acc : List (String × ℚ)) (k : String) (v : ℚ),
    k ∉ acc.map Prod.fst → addTo acc k v = acc ++ [(k, v)]
  | [], _, _, _ => rfl
  | (k', v') :: rest, k, v, h => by
    have hk : k' ≠ k := fun e => h (by simp [e])
    have hr : k ∉ rest.map Prod.fst := fun m => h (by simp [m])
    unfold addTo
    rw [if_neg hk, addTo_of_not_mem rest k v hr]
    simp

theorem addTo_of_mem : ∀ (acc : List (String × ℚ)) (k : String) (v : ℚ),
    (acc.map Prod.fst).Nodup → k ∈ acc.map Prod.fst →
    addTo acc k v = acc.map (fun p => if p.1 = k then (p.1, p.2 + v) else p)
  | [], _, _, _, hm => absurd hm (by simp)
  | (k', v') :: rest, k, v, hnd, hm => by
    rw [List.map_cons, List.nodup_cons] at hnd
    by_cases hk : k' = k
    · subst hk
      have hid : rest.map (fun p => if p.1 = k' then (p.1, p.2 + v) else p) = rest := by
        have h1 : rest.map (fun p => if p.1 = k' then (p.1, p.2 + v) else p)
            = rest.map id := by
          apply List.map_congr_left
          intro p hp
          have hpm : p.1 ∈ rest.map Prod.fst := List.mem_map_of_mem Prod.fst hp
          have hne : p.1 ≠ k' := fun e => hnd.1 (e ▸ hpm)
          simp [hne]
        rw [h1, List.map_id]
      unfold addTo
      rw [if_pos rfl]
      simp [hid]
    · have hm' : k ∈ rest.map Prod.fst := by
        rcases List.mem_cons.mp hm with e | m
        · exact absurd e.symm hk
        · exact m
      unfold addTo
      rw [if_neg hk, addTo_of_mem rest k v hnd.2 hm']
      simp [hk]

theorem keys_addTo : ∀ (acc : List (String × ℚ)) (k : String) (v : ℚ),
    (addTo acc k v).map Prod.fst =
      if k ∈ acc.map Prod.fst then acc.map Prod.fst
      else acc.map Prod.fst ++ [k]
  | [], k, v => by simp [addTo]
  | (k', v') :: rest, k, v => by
    by_cases hk : k' = k
    · subst hk
      unfold addTo
      rw [if_pos rfl]
      simp
    · unfold addTo
      rw [if_neg hk, List.map_cons, keys_addTo rest k v]
      by_cases hm : k ∈ rest.map Prod.fst
      · rw [if_pos hm, List.map_cons,
          if_pos (List.mem_cons.mpr (Or.inr hm))]
      · rw [if_neg hm, List.map_cons]
        have : k ∉ (k', v').fst :: rest.map Prod.fst := by
          intro h
          rcases List.mem_cons.mp h with e | m
          · exact hk e.symm
          · exact hm m
        rw [if_neg this]
        simp

theorem nodup_keys_addTo (acc : List (String × ℚ)) (k : String) (v : ℚ)
    (h : (acc.map Prod.fst).Nodup) : ((addTo acc k v).map Prod.fst).Nodup := by
  rw [keys_addTo]
  by_cases hm : k ∈ acc.map Prod.fst
  · rw [if_pos hm]; exact h
  · rw [if_neg hm]
    simp only [List.nodup_append, List.nodup_cons]
    refine ⟨h, by simp, ?_⟩
    intro x hx
    simp only [List.mem_singleton]
    intro e
    exact hm (e ▸ hx)

theorem sumFor_nil (k : String) : sumFor [] k = 0 := rfl

theorem sumFor_cons (k₀ : String) (v₀ : ℚ) (rest : List (String × ℚ)) (k : String) :
    sumFor ((k₀, v₀) :: rest) k = (if k₀ = k then v₀ else 0) + sumFor rest k := by
  unfold sumFor
  by_cases h : k₀ = k
  · simp [List.filter_cons, h]
  · simp [List.filter_cons, h]

theorem mem_keysFirst : ∀ (l : List (String × ℚ)) (k : String),
    k ∈ keysFirst l ↔ k ∈ l.map Prod.fst
  | [], k => by simp [keysFirst]
  | (k₀, v₀) :: rest, k => by
    by_cases h : k = k₀
    · simp [keysFirst, h]
    · simp [keysFirst, List.mem_filter, h, mem_keysFirst rest k]

theorem foldAdd_nil (acc : List (String × ℚ)) : foldAdd acc [] = acc := rfl

theorem foldAdd_cons (acc : List (String × ℚ)) (p : String × ℚ)
    (rest : List (String × ℚ)) :
    foldAdd acc (p :: rest) = foldAdd (addTo acc p.1 p.2) rest := rfl

theorem foldAdd_eq : ∀ (l : List (String × ℚ)) (acc : List (String × ℚ)),
    (acc.map Prod.fst).Nodup →
    foldAdd acc l =
      acc.map (fun p => (p.1, p.2 + sumFor l p.1)) ++
        ((keysFirst l).filter (fun x => decide (x ∉ acc.map Prod.fst))).map
          (fun x => (x, sumFor l x))
  | [], acc, _ => by
    simp [foldAdd, sumFor, keysFirst]
  | (k₀, v₀) :: rest, acc, hnd => by
    rw [foldAdd_cons,
      foldAdd_eq rest (addTo acc (k₀, v₀).1 (k₀, v₀).2)
        (nodup_keys_addTo acc (k₀, v₀).1 (k₀, v₀).2 hnd)]
    by_cases hm : k₀ ∈ acc.map Prod.fst
    · rw [show addTo acc (k₀, v₀).1 (k₀, v₀).2 = addTo acc k₀ v₀ from rfl,
        addTo_of_mem acc k₀ v₀ hnd hm]
      have hkeys : ((acc.map (fun p => if p.1 = k₀ then (p.1, p.2 + v₀) else p)).map
          Prod.fst) = acc.map Prod.fst := by
        rw [List.map_map]
        apply List.map_congr_left
        intro p _
        by_cases h : p.1 = k₀ <;> simp [h]
      rw [List.map_map, hkeys]
      congr 1
      · apply List.map_congr_left
        intro p _
        by_cases h : p.1 = k₀
        · simp [Function.comp, h, sumFor_cons, add_assoc]
        · have h' : ¬ (k₀ = p.1) := fun e => h e.symm
          simp [Function.comp, h, h', sumFor_cons]
      · have hdrop : (keysFirst ((k₀, v₀) :: rest)).filter
            (fun x => decide (x ∉ acc.map Prod.fst)) =
            ((keysFirst rest).filter (fun x => decide (x ≠ k₀))).filter
              (fun x => decide (x ∉ acc.map Prod.fst)) := by
          show (k₀ :: (keysFirst rest).filter (fun x => decide (x ≠ k₀))).filter
              (fun x => decide (x ∉ acc.map Prod.fst)) = _
          rw [List.filter_cons]
          simp [hm]
        rw [hdrop, List.filter_filter]
        have hpred : ∀ x, (decide (x ∉ acc.map Prod.fst) && decide (x ≠ k₀))
            = decide (x ∉ acc.map Prod.fst) := by
          intro x
          by_cases hx : x ∈ acc.map Prod.fst
          · simp [hx]
          · have hne : x ≠ k₀ := fun e => hx (e ▸ hm)
            simp [hx, hne]
        rw [List.filter_congr (fun x _ => hpred x)]
        apply List.map_congr_left
        intro x hx
        have hnm : x ∉ acc.map Prod.fst := by
          have := (List.mem_filter.mp hx).2
          simpa using this
        have hxk : ¬ (k₀ = x) := fun e => hnm (e ▸ hm)
        rw [sumFor_cons, if_neg hxk, zero_add]
    · rw [show addTo acc (k₀, v₀).1 (k₀, v₀).2 = addTo acc k₀ v₀ from rfl,
        addTo_of_not_mem acc k₀ v₀ hm]
      have hkeys : ((acc ++ [(k₀, v₀)]).map Prod.fst) = acc.map Prod.fst ++ [k₀] := by
        simp
      rw [hkeys]
      have hhead : (keysFirst ((k₀, v₀) :: rest)).filter
          (fun x => decide (x ∉ acc.map Prod.fst)) =
          k₀ :: ((keysFirst rest).filter (fun x => decide (x ≠ k₀))).filter
            (fun x => decide (x ∉ acc.map Prod.fst)) := by
        show (k₀ :: (keysFirst rest).filter (fun x => decide (x ≠ k₀))).filter
            (fun x => decide (x ∉ acc.map Prod.fst)) = _
        rw [List.filter_cons]
        simp [hm]
      rw [hhead]
      have hsum₀ : sumFor ((k₀, v₀) :: rest) k₀ = v₀ + sumFor rest k₀ := by
        rw [sumFor_cons]; simp
      have hmap₁ : acc.map (fun p => (p.1, p.2 + sumFor ((k₀, v₀) :: rest) p.1))
          = acc.map (fun p => (p.1, p.2 + sumFor rest p.1)) := by
        apply List.map_congr_left
        intro p hp
        have hne : k₀ ≠ p.1 := by
          intro e
          exact hm (e ▸ List.mem_map_of_mem Prod.fst hp)
        rw [sumFor_cons, if_neg hne, zero_add]
      have hfilt : ((keysFirst rest).filter (fun x => decide (x ≠ k₀))).filter
            (fun x => decide (x ∉ acc.map Prod.fst)) =
          (keysFirst rest).filter
            (fun x => decide (x ∉ acc.map Prod.fst ++ [k₀])) := by
        rw [List.filter_filter]
        apply List.filter_congr
        intro x _
        by_cases h1 : x = k₀
        · simp [h1]
        · by_cases h2 : x ∈ acc.map Prod.fst <;> simp [h1, h2]
      calc (acc ++ [(k₀, v₀)]).map (fun p => (p.1, p.2 + sumFor rest p.1)) ++
            ((keysFirst rest).filter
              (fun x => decide (x ∉ acc.map Prod.fst ++ [k₀]))).map
              (fun x => (x, sumFor rest x))
          = acc.map (fun p => (p.1, p.2 + sumFor rest p.1)) ++
              ((k₀, v₀ + sumFor rest k₀) ::
                ((keysFirst rest).filter
                  (fun x => decide (x ∉ acc.map Prod.fst ++ [k₀]))).map
                  (fun x => (x, sumFor rest x))) := by
            rw [List.map_append, List.append_assoc]
            simp
        _ = acc.map (fun p => (p.1, p.2 + sumFor ((k₀, v₀) :: rest) p.1)) ++
              ((k₀, sumFor ((k₀, v₀) :: rest) k₀) ::
                (((keysFirst rest).filter (fun x => decide (x ≠ k₀))).filter
                  (fun x => decide (x ∉ acc.map Prod.fst))).map
                  (fun x => (x, sumFor ((k₀, v₀) :: rest) x))) := by
            rw [hmap₁, hsum₀, hfilt]
            congr 2
            apply List.map_congr_left
            intro x hx
            have hxin := (List.mem_filter.mp hx).2
            simp only [decide_eq_true_eq, List.mem_append, List.mem_singleton] at hxin
            have hxk : ¬ (k₀ = x) := fun e => hxin (Or.inr e.symm)
            rw [sumFor_cons, if_neg hxk, zero_add]
        _ = _ := by rw [List.map_cons]

theorem foldAdd_nil_eq (l : List (String × ℚ)) :
    foldAdd [] l = (keysFirst l).map (fun x => (x, sumFor l x)) := by
  have h := foldAdd_eq l [] (by simp)
  simpa using h

theorem foldl_eq_foldAdd {β : Type} (f : β → Option (String × ℚ))
    (step : List (String × ℚ) → β → List (String × ℚ))
    (hstep : ∀ acc b, step acc b =
      match f b with
      | some p => addTo acc p.1 p.2
      | none => acc) :
    ∀ (l : List β) (acc : List (String × ℚ)),
      l.foldl step acc = foldAdd acc (l.filterMap f)
  | [], _ => rfl
  | b :: l, acc => by
    rw [List.foldl_cons, hstep]
    cases h : f b with
    | none =>
      rw [List.filterMap_cons_none h]
      exact foldl_eq_foldAdd f step hstep l acc
    | some p =>
      rw [List.filterMap_cons_some h, foldAdd_cons]
      exact foldl_eq_foldAdd f step hstep l (addTo acc p.1 p.2)

/-! ## The card and cashback accumulation loops, record by record -/

theorem cardStep_eq (acc : List (String × ℚ)) (op : CardOp) :
    cardStep acc op =
      match cardExpense op with
      | some p => addTo acc p.1 p.2
      | none => acc := by
  rcases op with ⟨card, amount⟩
  simp only [cardStep, cardExpense]
  by_cases hc : pyStrip (card.getD "") = ""
  · rw [if_pos (Or.inl hc), if_pos hc]
  · rcases amount with _ | (q | _)
    · simp [hc, CellVal.isNum]
    · by_cases hq : q < 0
      · simp only [Option.getD_some, CellVal.isNum, Bool.true_eq_false,
          or_false, if_neg hc, if_pos hq]
        congr 1
        unfold cardSuffix
        by_cases hl : 4 ≤ (pyStrip (card.getD "")).length
        · rw [if_pos hl, if_neg (by omega)]
        · rw [if_neg hl, if_pos (by omega)]
      · simp [hc, CellVal.isNum, hq]
    · simp [hc, CellVal.isNum]

theorem cashStep_eq (year month : ℕ) (acc : List (String × ℚ)) (t : CashTx) :
    cashStep year month acc t =
      match cashContribution year month t with
      | some p => addTo acc p.1 p.2
      | none => acc := by
  simp only [cashStep, cashContribution]
  cases hd : strptimeDMY (t.date.getD "") with
  | none => rfl
  | some dt =>
    dsimp only
    by_cases hym : dt.year = year ∧ dt.month = month
    · have hguard : ¬ (dt.year ≠ year ∨ dt.month ≠ month) := by
        push_neg
        exact hym
      rw [if_neg hguard, if_pos hym]
      cases hcb : t.cashback.getD (CellVal.num 0) with
      | num cb =>
        dsimp only
        by_cases hneg : cb < 0
        · rw [if_pos hneg, if_neg (not_le.mpr hneg)]
        · rw [if_neg hneg, if_pos (not_lt.mp hneg)]
      | other => rfl
    · have hguard : dt.year ≠ year ∨ dt.month ≠ month := not_and_or.mp hym
      rw [if_pos hguard, if_neg hym]

/-! ## Claim theorems -/

/-- Claim C2: analyze_cards ignores records with an empty/missing card
number or a non-numeric amount, considers only negative amounts, groups by
the last 4 characters of the card-number string (the whole string when
shorter), and each output entry carries the group's first-encounter order,
total_spent = the sum of absolute values of the group's negative amounts
rounded to 2 decimals, and cashback = 1% of that sum rounded to 2
decimals. -/
theorem analyze_cards_spec (operations : List CardOp) :
    analyze_cards operations =
      (keysFirst (operations.filterMap cardExpense)).map (fun k =>
        { last_digits := k,
          total_spent := round2 (sumFor (operations.filterMap cardExpense) k),
          cashback :=
            round2 (sumFor (operations.filterMap cardExpense) k * (1/100)) }) := by
  unfold analyze_cards analyze_cards_st
  rw [foldl_eq_foldAdd cardExpense cardStep cardStep_eq operations [],
    foldAdd_nil_eq]
  dsimp only
  rw [List.map_map]
  rfl

/-- Claim C3: analyze_cashback keeps exactly the records whose operation
date parses in format DD.MM.YYYY HH:MM:SS with matching year and month and
whose cashback value (defaulting to 0 when the field is absent) is numeric
and non-negative, accumulates the cashback sum per category (categories in
first-encounter order), rounds each sum to 2 decimals only after summation,
and returns the mapping serialized as a JSON string; in particular two
matching records of one category with cashback 33.33 and 66.66 yield
99.99. -/
theorem analyze_cashback_spec (data : List CashTx) (year month : ℕ) :
    (analyze_cashback data year month =
      jsonDumps ((keysFirst (data.filterMap (cashContribution year month))).map
        (fun c => (c, round2 (sumFor (data.filterMap (cashContribution year month)) c)))))
    ∧ analyze_cashback
        [⟨some "05.07.2020 10:00:00", some "Groceries", some (CellVal.num (3333/100))⟩,
         ⟨some "06.07.2020 11:00:00", some "Groceries", some (CellVal.num (6666/100))⟩]
        2020 7
      = "\x7b\n    \"Groceries\": 99.99\n\x7d" := by
  constructor
  · unfold analyze_cashback analyze_cashback_st cashbackMap
    rw [foldl_eq_foldAdd (cashContribution year month) (cashStep year month)
      (cashStep_eq year month) data [], foldAdd_nil_eq]
    dsimp only
    rw [List.map_map]
    rfl
  · have hd1 : strptimeDMY "05.07.2020 10:00:00" =
        some ⟨2020, 7, 5, 10, 0, 0, 0⟩ := by decide
    have hd2 : strptimeDMY "06.07.2020 11:00:00" =
        some ⟨2020, 7, 6, 11, 0, 0, 0⟩ := by decide
    have e1 : cashStep 2020 7 []
        ⟨some "05.07.2020 10:00:00", some "Groceries", some (CellVal.num (3333/100))⟩
        = [("Groceries", (3333 : ℚ)/100)] := by
      simp only [cashStep, Option.getD_some, hd1]
      norm_num [addTo]
    have e2 : cashStep 2020 7 [("Groceries", (3333 : ℚ)/100)]
        ⟨some "06.07.2020 11:00:00", some "Groceries", some (CellVal.num (6666/100))⟩
        = [("Groceries", (3333 : ℚ)/100 + 6666/100)] := by
      simp only [cashStep, Option.getD_some, hd2]
      norm_num [addTo]
    have esum : (3333 : ℚ)/100 + 6666/100 = 9999/100 := by norm_num
    have eround : round2 ((9999 : ℚ)/100) = 9999/100 := by
      unfold round2 roundHalfEven
      have h1 : ((9999 : ℚ)/100) * 100 = ((9999 : ℤ) : ℚ) := by norm_num
      rw [h1, Int.floor_intCast]
      norm_num
    have eprint : printNum ((9999 : ℚ)/100) = "99.99" := by
      unfold printNum
      have habs : |(9999 : ℚ)/100| * 100 = ((9999 : ℤ) : ℚ) := by
        rw [abs_of_nonneg (by norm_num)]
        norm_num
      rw [habs, Int.floor_intCast]
      norm_num
      decide
    unfold analyze_cashback analyze_cashback_st cashbackMap
    dsimp only
    rw [List.foldl_cons, e1, List.foldl_cons, e2, List.foldl_nil,
      List.map_cons, List.map_nil, esum, eround]
    unfold jsonDumps
    dsimp only [List.map_cons, List.map_nil]
    rw [eprint]
    rfl

/-- Claim C10: a record whose operation date matches the target year and
month but whose cashback field is absent contributes 0 (not skipped):
its category appears among the keys of the cashback mapping. -/
theorem analyze_cashback_missing_cashback (data : List CashTx) (year month : ℕ)
    (t : CashTx) (dt : DateTime) (ht : t ∈ data)
    (hd : strptimeDMY (t.date.getD "") = some dt)
    (hy : dt.year = year) (hm : dt.month = month) (hc : t.cashback = none) :
    cashContribution year month t = some (t.category.getD "Неизвестно", 0)
    ∧ (t.category.getD "Неизвестно") ∈ (cashbackMap data year month).map Prod.fst := by
  have h1 : cashContribution year month t = some (t.category.getD "Неизвестно", 0) := by
    unfold cashContribution
    rw [hd]
    dsimp only
    rw [if_pos (And.intro hy hm), hc]
    dsimp only [Option.getD]
    rw [if_pos (le_refl (0 : ℚ))]
  refine ⟨h1, ?_⟩
  unfold cashbackMap
  rw [foldl_eq_foldAdd (cashContribution year month) (cashStep year month)
    (cashStep_eq year month) data [], foldAdd_nil_eq]
  have hmem : (t.category.getD "Неизвестно") ∈
      keysFirst (data.filterMap (cashContribution year month)) := by
    rw [mem_keysFirst]
    exact List.mem_map_of_mem Prod.fst
      (List.mem_filterMap.mpr ⟨t, ht, h1⟩)
  simpa using hmem

/-- Witness for C10 at a concrete record with an absent cashback field. -/
theorem analyze_cashback_missing_cashback_witness :
    cashContribution 2020 7 ⟨some "05.07.2020 10:00:00", some "Groceries", none⟩
      = some ("Groceries", 0)
    ∧ "Groceries" ∈
      (cashbackMap [⟨some "05.07.2020 10:00:00", some "Groceries", none⟩] 2020 7).map
        Prod.fst := by
  have h := analyze_cashback_missing_cashback
    [⟨some "05.07.2020 10:00:00", some "Groceries", none⟩] 2020 7
    ⟨some "05.07.2020 10:00:00", some "Groceries", none⟩
    ⟨2020, 7, 5, 10, 0, 0, 0⟩ (by simp) (by decide) rfl rfl rfl
  exact h

/-- Claim C1 (code bug): with target "2025-04-06 22:12:53" the code drops a
record whose payment date is 2025-04-01 00:00:00, although the window is
specified to start at the first calendar day of the target's month at
00:00:00 (and the function's own docstring filters operations from the
first day of the month): replace(day=1) keeps the target's time-of-day
instead of normalising it to midnight.  With a midnight target the same
record is kept, pinning the divergence to the target's time-of-day. -/
theorem filter_operations_by_date_first_day_dropped :
    filter_operations_by_date [⟨some ⟨2025, 4, 1, 0, 0, 0, 0⟩, "r1"⟩]
        "2025-04-06 22:12:53" = Except.ok []
    ∧ filter_operations_by_date [⟨some ⟨2025, 4, 1, 0, 0, 0, 0⟩, "r1"⟩]
        "2025-04-06 00:00:00" =
      Except.ok [⟨some ⟨2025, 4, 1, 0, 0, 0, 0⟩, "r1"⟩] := by
  have hp1 : strptimeYMD "2025-04-06 22:12:53" =
      some ⟨2025, 4, 6, 22, 12, 53, 0⟩ := by decide
  have hp2 : strptimeYMD "2025-04-06 00:00:00" =
      some ⟨2025, 4, 6, 0, 0, 0, 0⟩ := by decide
  constructor
  · unfold filter_operations_by_date filter_operations_by_date_st
    rw [hp1]
    simp [dtLE, DateTime.key]
  · unfold filter_operations_by_date filter_operations_by_date_st
    rw [hp2]
    simp [dtLE, DateTime.key]

/-- Claim C7: filter_operations_by_date fails with a parse error exactly
when the target date string does not parse in format YYYY-MM-DD HH:MM:SS
(the error is returned to the caller, not recovered), while a record with
a missing payment date never causes an error: it is silently dropped from
the output. -/
theorem filter_operations_by_date_error_handling (df : List PayRow) (s : String) :
    ((∃ e, filter_operations_by_date df s = Except.error e) ↔ strptimeYMD s = none)
    ∧ (∀ out, filter_operations_by_date df s = Except.ok out →
        ∀ r ∈ out, r.paymentDate ≠ none)
    ∧ (∀ r ∈ df, r.paymentDate = none →
        ∀ out, filter_operations_by_date df s = Except.ok out → r ∉ out) := by
  unfold filter_operations_by_date filter_operations_by_date_st
  cases hp : strptimeYMD s with
  | none =>
    dsimp only
    refine ⟨⟨fun _ => rfl, fun _ => ⟨_, rfl⟩⟩, ?_, ?_⟩
    · intro out h
      cases h
    · intro r _ _ out h
      cases h
  | some target =>
    dsimp only
    refine ⟨⟨?_, ?_⟩, ?_, ?_⟩
    · rintro ⟨e, he⟩
      cases he
    · intro h
      cases h
    · intro out hout r hr
      injection hout with h
      subst h
      rw [List.mem_mergeSort] at hr
      have h2 := (List.mem_filter.mp hr).2
      cases hd : r.paymentDate with
      | none =>
        rw [hd] at h2
        simp at h2
      | some d =>
        simp
    · intro r _ hnone out hout hrout
      injection hout with h
      subst h
      rw [List.mem_mergeSort] at hrout
      have h2 := (List.mem_filter.mp hrout).2
      rw [hnone] at h2
      simp at h2

/-- Witness for C7 at a concrete unparseable target date. -/
theorem filter_operations_by_date_error_handling_witness :
    ∃ e, filter_operations_by_date [⟨none, "x"⟩] "oops" = Except.error e :=
  (filter_operations_by_date_error_handling [⟨none, "x"⟩] "oops").1.mpr (by decide)

/-- Claim C4: get_top_5_transactions keeps exactly the records with a
numeric amount, returns at most 5 items (5 when at least 5 records are
kept), sorted by non-increasing absolute amount; records of equal absolute
amount keep their relative input order, and every returned item carries the
original signed amount of the input record it was built from. -/
theorem get_top_5_transactions_spec (operations : List TopOp) :
    (get_top_5_transactions operations).length
        = min 5 (topEntries operations).length
    ∧ (get_top_5_transactions operations).Pairwise
        (fun a b => abs b.amount ≤ abs a.amount)
    ∧ (∀ c : ℚ, (get_top_5_transactions operations).filter
          (fun x => decide (abs x.amount = c)) <+:
        (topEntries operations).filter (fun x => decide (abs x.amount = c)))
    ∧ (∀ x ∈ get_top_5_transactions operations, ∃ op ∈ operations, ∃ q : ℚ,
        op.amount = some (CellVal.num q) ∧ x = mkTopTx op q) := by
  have htrans : ∀ (a b c : TopTx), topLE a b → topLE b c → topLE a c := by
    intro a b c hab hbc
    simp only [topLE, decide_eq_true_eq] at *
    exact le_trans hbc hab
  have htotal : ∀ (a b : TopTx), topLE a b || topLE b a := by
    intro a b
    simp only [topLE, Bool.or_eq_true, decide_eq_true_eq]
    exact le_total _ _
  refine ⟨?_, ?_, ?_, ?_⟩
  · unfold get_top_5_transactions get_top_5_transactions_st
    dsimp only
    rw [List.length_take, List.length_mergeSort]
  · have hs := List.sorted_mergeSort htrans htotal (topEntries operations)
    have hsub : List.Sublist (get_top_5_transactions operations)
        ((topEntries operations).mergeSort topLE) :=
      List.take_sublist 5 _
    have hp := List.Pairwise.sublist hsub hs
    refine hp.imp ?_
    intro a b h
    simpa [topLE] using h
  · intro c
    have h1 : List.Sublist
        ((topEntries operations).filter (fun x => decide (abs x.amount = c)))
        (topEntries operations) := List.filter_sublist _
    have hpw : ((topEntries operations).filter
        (fun x => decide (abs x.amount = c))).Pairwise
        (fun a b => topLE a b = true) := by
      apply List.pairwise_of_forall_mem_list
      intro a ha b hb
      have ha' := (List.mem_filter.mp ha).2
      have hb' := (List.mem_filter.mp hb).2
      simp only [decide_eq_true_eq] at ha' hb'
      simp [topLE, ha', hb']
    have h2 : List.Sublist
        ((topEntries operations).filter (fun x => decide (abs x.amount = c)))
        ((topEntries operations).mergeSort topLE) :=
      List.sublist_mergeSort htrans htotal hpw h1
    have h3 := h2.filter (fun x => decide (abs x.amount = c))
    rw [List.filter_filter,
      List.filter_congr (fun x _ => Bool.and_self _)] at h3
    have h4 : List.Perm
        (((topEntries operations).mergeSort topLE).filter
          (fun x => decide (abs x.amount = c)))
        ((topEntries operations).filter (fun x => decide (abs x.amount = c))) :=
      (List.mergeSort_perm (topEntries operations) topLE).filter _
    have h5 := h3.eq_of_length (h4.length_eq.symm)
    have h6 := List.IsPrefix.filter (fun x => decide (abs x.amount = c))
      ( List.take_prefix 5 ((topEntries operations).mergeSort topLE))
    rw [← h5] at h6
    exact h6
  · intro x hx
    have hx1 : x ∈ (topEntries operations).mergeSort topLE :=
      List.mem_of_mem_take hx
    rw [List.mem_mergeSort] at hx1
    obtain ⟨op, hop, hmk⟩ := List.mem_filterMap.mp hx1
    rcases ha : op.amount with _ | (q | _)
    · rw [ha] at hmk
      simp at hmk
    · rw [ha] at hmk
      simp only [Option.some.injEq] at hmk
      exact ⟨op, hop, q, ha, hmk.symm⟩
    · rw [ha] at hmk
      simp at hmk

/-- Witness for C4's membership-and-sign clause at a concrete record. -/
theorem get_top_5_transactions_spec_witness :
    ∃ op ∈ ([⟨some (CellVal.num (-5)), DateVal.missing, none, none⟩] : List TopOp),
      ∃ q : ℚ, op.amount = some (CellVal.num q) ∧
        mkTopTx ⟨some (CellVal.num (-5)), DateVal.missing, none, none⟩ (-5)
          = mkTopTx op q := by
  have hmem : mkTopTx ⟨some (CellVal.num (-5)), DateVal.missing, none, none⟩ (-5) ∈
      get_top_5_transactions [⟨some (CellVal.num (-5)), DateVal.missing, none, none⟩] := by
    unfold get_top_5_transactions get_top_5_transactions_st topEntries
    simp
  exact (get_top_5_transactions_spec
    [⟨some (CellVal.num (-5)), DateVal.missing, none, none⟩]).2.2.2 _ hmem

/-- Claim C5: spending_by_category keeps exactly the rows whose category
equals the requested one (exact string equality) and whose operation date d
satisfies start < d ≤ end, where end is the reference date (today when no
date is given) and start is end minus 3 calendar months; the result is
sorted ascending by operation date and the input collection is returned
unchanged. -/
theorem spending_by_category_spec (transactions : List TxRow) (category : String)
    (date : Option DateTime) (today : DateTime) :
    (∀ r, r ∈ spending_by_category transactions category date today ↔
        r ∈ transactions ∧ r.category = category ∧
        (subMonths3 (date.getD today)).key < r.opDate.key ∧
        r.opDate.key ≤ (date.getD today).key)
    ∧ (spending_by_category transactions category date today).Pairwise
        (fun a b => a.opDate.key ≤ b.opDate.key)
    ∧ (spending_by_category_st transactions category date today).2 = transactions := by
  have hend : (match date with | none => today | some d => d) = date.getD today := by
    cases date <;> rfl
  have htrans : ∀ (a b c : TxRow), txLE a b → txLE b c → txLE a c := by
    intro a b c hab hbc
    simp only [txLE, dtLE, decide_eq_true_eq] at *
    exact le_trans hab hbc
  have htotal : ∀ (a b : TxRow), txLE a b || txLE b a := by
    intro a b
    simp only [txLE, dtLE, Bool.or_eq_true, decide_eq_true_eq]
    exact le_total _ _
  refine ⟨?_, ?_, ?_⟩
  · intro r
    unfold spending_by_category spending_by_category_st
    dsimp only
    rw [hend, List.mem_mergeSort, List.mem_filter]
    simp only [Bool.and_eq_true, decide_eq_true_eq, dtLT, dtLE]
    constructor
    · rintro ⟨h1, ⟨h2, h3⟩, h4⟩
      exact ⟨h1, h2, h3, h4⟩
    · rintro ⟨h1, h2, h3, h4⟩
      exact ⟨h1, ⟨h2, h3⟩, h4⟩
  · unfold spending_by_category spending_by_category_st
    dsimp only
    refine List.Pairwise.imp ?_ (List.sorted_mergeSort htrans htotal _)
    intro a b hab
    simpa [txLE, dtLE] using hab
  · rfl

/-- Witness for C5 at a concrete row inside the 3-month window. -/
theorem spending_by_category_spec_witness :
    (⟨"Продукты", ⟨2020, 3, 15, 0, 0, 0, 0⟩, "r"⟩ : TxRow) ∈
      spending_by_category [⟨"Продукты", ⟨2020, 3, 15, 0, 0, 0, 0⟩, "r"⟩]
        "Продукты" (some ⟨2020, 4, 1, 0, 0, 0, 0⟩) ⟨2020, 4, 1, 0, 0, 0, 0⟩ :=
  ((spending_by_category_spec [⟨"Продукты", ⟨2020, 3, 15, 0, 0, 0, 0⟩, "r"⟩]
      "Продукты" (some ⟨2020, 4, 1, 0, 0, 0, 0⟩) ⟨2020, 4, 1, 0, 0, 0, 0⟩).1
    ⟨"Продукты", ⟨2020, 3, 15, 0, 0, 0, 0⟩, "r"⟩).mpr
    ⟨by simp, rfl, by decide, by decide⟩

/-- Claim C9: get_greeting, as a function of the hour of day, selects the
morning greeting on [6,12), the afternoon greeting on [12,18), the evening
greeting on [18,24) and the night greeting on [0,6); the four intervals
cover every hour 0–23, and in particular hour 13 gives the afternoon
greeting, hour 23 the evening greeting and hour 0 the night greeting. -/
theorem get_greeting_spec (h : ℕ) (hh : h ≤ 23) :
    ((6 ≤ h ∧ h < 12) → get_greeting h = "Доброе утро")
    ∧ ((12 ≤ h ∧ h < 18) → get_greeting h = "Добрый день")
    ∧ ((18 ≤ h ∧ h < 24) → get_greeting h = "Добрый вечер")
    ∧ (h < 6 → get_greeting h = "Доброй ночи")
    ∧ ((6 ≤ h ∧ h < 12) ∨ (12 ≤ h ∧ h < 18) ∨ (18 ≤ h ∧ h < 24) ∨ h < 6)
    ∧ get_greeting 13 = "Добрый день"
    ∧ get_greeting 23 = "Добрый вечер"
    ∧ get_greeting 0 = "Доброй ночи" := by
  refine ⟨?_, ?_, ?_, ?_, by omega, by decide, by decide, by decide⟩
  · intro hcond
    unfold get_greeting
    rw [if_pos hcond]
  · intro hcond
    unfold get_greeting
    rw [if_neg (by omega), if_pos hcond]
  · intro hcond
    unfold get_greeting
    rw [if_neg (by omega), if_neg (by omega), if_pos hcond]
  · intro hcond
    unfold get_greeting
    rw [if_neg (by omega), if_neg (by omega), if_neg (by omega)]

/-- Witness for C9 at hour 13. -/
theorem get_greeting_spec_witness : get_greeting 13 = "Добрый день" :=
  (get_greeting_spec 13 (by decide)).2.1 (by decide)

/-- Claim C8: none of the five filtering/aggregation operations mutates its
input collection: in the state-passing embedding each returns the input
state unchanged alongside the freshly derived output. -/
theorem aggregation_ops_preserve_input (df : List PayRow) (s : String)
    (tx : List TxRow) (cat : String) (d : Option DateTime) (today : DateTime)
    (cops : List CardOp) (tops : List TopOp) (data : List CashTx)
    (year month : ℕ) :
    (filter_operations_by_date_st df s).2 = df
    ∧ (spending_by_category_st tx cat d today).2 = tx
    ∧ (analyze_cards_st cops).2 = cops
    ∧ (get_top_5_transactions_st tops).2 = tops
    ∧ (analyze_cashback_st data year month).2 = data := by
  refine ⟨?_, rfl, rfl, rfl, rfl⟩
  unfold filter_operations_by_date_st
  cases strptimeYMD s <;> rfl

/-- Claim C6: the wrapper built by report_to_file returns the wrapped
function's result unchanged, and the JSON value it writes to the file is
the JSON-serializable projection of that result: a dataframe becomes its
list of per-row mappings, a dict/list/string/number/boolean/null value is
serialized as-is, and any other value becomes its string representation. -/
theorem report_to_file_spec {α : Type} (func : α → ReportResult) (args : α) :
    (report_to_file func args).1 = func args
    ∧ (report_to_file func args).2 = jsonProjection (func args) := by
  refine ⟨rfl, ?_⟩
  show data_to_save (func args) = jsonProjection (func args)
  cases func args <;> rfl

end Banking
